import Mathlib

/-!
Verification of the style-profile aggregation pipeline of the
Pinterest-Analyzer repository (src/main.py).

The development shallowly embeds the pipeline code: pure computations
(`get_dominant_colors`, `display_style_summary`, the pipeline loop of
`analyze_board_with_progress`, the button handler) become Lean functions;
the external collaborators (HTTP fetch / image resolution, PIL decoding,
the vision-model call) are parameters of the pipeline; machine floats are
modelled as exact rationals; fallible code returns `Option`/`Except`.
-/

namespace PinterestAnalyzer

/-! ### Stable descending sort by a key

`sorted(xs, key=..., reverse=True)` and `Counter.most_common(n)` in Python
are stable: elements with equal keys keep their original relative order.
We reuse Mathlib's `List.insertionSort` (which inserts each element before
the tied elements already sorted, i.e. is stable for the fold-right
recursion) with the descending relation `keyGe`, and prove the stability
statement `pairwise_insertionSort_keyGt`. -/

section StableSort

variable {α : Type} {γ : Type} [LinearOrder γ]

/-- Descending comparison by a key: `a` may come before `b` when
`key b ≤ key a`.  This is the relation `sorted(..., reverse=True)` sorts by. -/
def keyGe (key : α → γ) (a b : α) : Prop := key b ≤ key a

instance (key : α → γ) : DecidableRel (keyGe key) := fun a b => by
  unfold keyGe; infer_instance

instance (key : α → γ) : IsTotal α (keyGe key) := ⟨fun a b => le_total (key b) (key a)⟩

instance (key : α → γ) : IsTrans α (keyGe key) := ⟨fun _ _ _ h1 h2 => le_trans h2 h1⟩

/-- Strict descending order with ties broken by the auxiliary relation `I`
(intended: `I a b` = `a` was observed before `b` in the input). -/
def keyGt (key : α → γ) (I : α → α → Prop) (a b : α) : Prop :=
  key b < key a ∨ (key a = key b ∧ I a b)

lemma pairwise_orderedInsert_keyGt (key : α → γ) (I : α → α → Prop) (x : α) :
    ∀ l : List α, l.Pairwise (keyGt key I) → (∀ y ∈ l, I x y) →
      (List.orderedInsert (keyGe key) x l).Pairwise (keyGt key I)
  | [], _, _ => by simp [List.orderedInsert, keyGt]
  | y :: ys, hl, hx => by
    rw [List.orderedInsert]
    rcases List.pairwise_cons.mp hl with ⟨hy, hys⟩
    by_cases h : keyGe key x y
    · rw [if_pos h]
      refine List.pairwise_cons.mpr ⟨?_, hl⟩
      intro z hz
      have hzx : key z ≤ key x := by
        rcases List.mem_cons.mp hz with rfl | hz'
        · exact h
        · rcases hy z hz' with hlt | ⟨heq, _⟩
          · exact le_trans hlt.le h
          · exact heq ▸ h
      rcases lt_or_eq_of_le hzx with hlt | heq
      · exact Or.inl hlt
      · exact Or.inr ⟨heq.symm, hx z hz⟩
    · rw [if_neg h]
      have hxy : key x < key y := lt_of_not_le h
      refine List.pairwise_cons.mpr ⟨?_, ?_⟩
      · intro w hw
        rcases (List.mem_orderedInsert _).mp hw with rfl | hw'
        · exact Or.inl hxy
        · exact hy w hw'
      · exact pairwise_orderedInsert_keyGt key I x ys hys fun z hz => hx z (List.mem_cons_of_mem y hz)

/-- Stability of the descending insertion sort: if the input is pairwise
related by `I` (e.g. listed in order of first observation), then in the
output every pair is either strictly descending by key, or tied with the
`I`-earlier element first. -/
lemma pairwise_insertionSort_keyGt (key : α → γ) (I : α → α → Prop) :
    ∀ l : List α, l.Pairwise I →
      (List.insertionSort (keyGe key) l).Pairwise (keyGt key I)
  | [], _ => by simp [List.insertionSort]
  | x :: xs, h => by
    rw [List.insertionSort]
    rcases List.pairwise_cons.mp h with ⟨hx, hxs⟩
    refine pairwise_orderedInsert_keyGt key I x _ (pairwise_insertionSort_keyGt key I xs hxs) ?_
    intro y hy
    exact hx y ((List.mem_insertionSort (keyGe key)).mp hy)

end StableSort

/-! ### Counting occurrences, modelling `collections.Counter`

A `Counter` built from a list iterates (in Python ≥ 3.7) in order of first
occurrence of each key, mapping each key to its number of occurrences. -/

section Counting

variable {α : Type} [DecidableEq α]

/-- The distinct values of a list, in order of first occurrence
(the iteration order of `Counter(l)` / `dict` keys in Python). -/
def keepFirst : List α → List α
  | [] => []
  | x :: xs => x :: (keepFirst xs).filter (fun y => decide (y ≠ x))

lemma mem_keepFirst {a : α} : ∀ {l : List α}, a ∈ keepFirst l ↔ a ∈ l
  | [] => Iff.rfl
  | x :: xs => by
    simp only [keepFirst, List.mem_cons, List.mem_filter, decide_eq_true_iff]
    constructor
    · rintro (rfl | ⟨h, _⟩)
      · exact Or.inl rfl
      · exact Or.inr (mem_keepFirst.mp h)
    · rintro (rfl | h)
      · exact Or.inl rfl
      · by_cases hax : a = x
        · exact Or.inl hax
        · exact Or.inr ⟨mem_keepFirst.mpr h, hax⟩

lemma nodup_keepFirst : ∀ l : List α, (keepFirst l).Nodup
  | [] => List.nodup_nil
  | x :: xs => by
    refine List.nodup_cons.mpr ⟨?_, List.Nodup.filter _ (nodup_keepFirst xs)⟩
    intro hx
    rcases List.mem_filter.mp hx with ⟨_, hne⟩
    exact decide_eq_true_iff.mp hne rfl

/-- Index of the first occurrence of `x` in `l` (0 when absent and `l` is
exhausted); used only to state first-observed tie-breaking. -/
def firstIdx : List α → α → Nat
  | [], _ => 0
  | y :: ys, x => if y = x then 0 else firstIdx ys x + 1

lemma keepFirst_pairwise_firstIdx :
    ∀ l : List α, (keepFirst l).Pairwise (fun a b => firstIdx l a < firstIdx l b)
  | [] => List.Pairwise.nil
  | x :: xs => by
    rw [keepFirst]
    refine List.pairwise_cons.mpr ⟨?_, ?_⟩
    · intro b hb
      rcases List.mem_filter.mp hb with ⟨_, hne⟩
      have hbx : b ≠ x := decide_eq_true_iff.mp hne
      simp only [firstIdx, if_pos rfl, if_neg (fun h : x = b => hbx h.symm)]
      exact Nat.succ_pos _
    · have hsub : ((keepFirst xs).filter (fun y => decide (y ≠ x))).Pairwise
          (fun a b => firstIdx xs a < firstIdx xs b) :=
        (keepFirst_pairwise_firstIdx xs).sublist (List.filter_sublist _)
      refine hsub.imp_of_mem ?_
      intro a b ha hb hab
      have hax : a ≠ x := decide_eq_true_iff.mp (List.mem_filter.mp ha).2
      have hbx : b ≠ x := decide_eq_true_iff.mp (List.mem_filter.mp hb).2
      simp only [firstIdx, if_neg (fun h : x = a => hax h.symm),
        if_neg (fun h : x = b => hbx h.symm)]
      exact Nat.succ_lt_succ hab

/-- `Counter(l)` as an association list: the distinct values in first-occurrence
order, each paired with its occurrence count. -/
def countOcc (l : List α) : List (α × Nat) :=
  (keepFirst l).map (fun x => (x, l.count x))

/-- `Counter(l).most_common(n)`: sort the counter entries by count,
descending, stably (Python's `heapq.nlargest` keeps first-observed order on
ties), and take the first `n`. -/
def mostCommon (n : Nat) (l : List α) : List (α × Nat) :=
  (List.insertionSort (keyGe Prod.snd) (countOcc l)).take n

/-- Specification of a correct ranked top-`n` view of the values `vs`:
right length, correct counts, sorted descending by count with ties in
first-observed order, and no omitted value outranks an included one. -/
def RankedOk (vs : List α) (n : Nat) (v : List (α × Nat)) : Prop :=
  v.length = min n (keepFirst vs).length ∧
  (∀ p ∈ v, p.1 ∈ vs ∧ p.2 = vs.count p.1) ∧
  v.Pairwise (fun a b => b.2 < a.2 ∨ (a.2 = b.2 ∧ firstIdx vs a.1 < firstIdx vs b.1)) ∧
  (∀ x ∈ vs, x ∉ v.map Prod.fst → ∀ p ∈ v, vs.count x ≤ p.2)

lemma sorted_countOcc_pairwise (vs : List α) :
    (List.insertionSort (keyGe Prod.snd) (countOcc vs)).Pairwise
      (keyGt Prod.snd (fun a b : α × Nat => firstIdx vs a.1 < firstIdx vs b.1)) := by
  refine pairwise_insertionSort_keyGt Prod.snd _ _ ?_
  rw [countOcc, List.pairwise_map]
  exact keepFirst_pairwise_firstIdx vs

lemma mem_sorted_countOcc {vs : List α} {p : α × Nat} :
    p ∈ List.insertionSort (keyGe Prod.snd) (countOcc vs) ↔
      p.1 ∈ keepFirst vs ∧ p.2 = vs.count p.1 := by
  rw [List.mem_insertionSort, countOcc]
  constructor
  · intro hp
    rcases List.mem_map.mp hp with ⟨x, hx, hxp⟩
    cases hxp
    exact ⟨hx, rfl⟩
  · rintro ⟨h1, h2⟩
    exact List.mem_map.mpr ⟨p.1, h1, by rw [← h2]⟩

/-- `most_common(n)` satisfies the full ranked-view specification. -/
theorem mostCommon_rankedOk (n : Nat) (vs : List α) : RankedOk vs n (mostCommon n vs) := by
  refine ⟨?_, ?_, ?_, ?_⟩
  · rw [mostCommon, List.length_take, List.length_insertionSort, countOcc, List.length_map]
  · intro p hp
    have hp' := mem_sorted_countOcc.mp (List.take_subset n _ hp)
    exact ⟨mem_keepFirst.mp hp'.1, hp'.2⟩
  · exact (sorted_countOcc_pairwise vs).sublist (List.take_sublist _ _)
  · intro x hx hnot p hp
    have hxm : (x, vs.count x) ∈ List.insertionSort (keyGe Prod.snd) (countOcc vs) :=
      mem_sorted_countOcc.mpr ⟨mem_keepFirst.mpr hx, rfl⟩
    have hsplit := List.take_append_drop n (List.insertionSort (keyGe Prod.snd) (countOcc vs))
    have hpw := sorted_countOcc_pairwise vs
    rw [← hsplit] at hpw hxm
    rcases List.mem_append.mp hxm with hin | hdrop
    · exact absurd (List.mem_map.mpr ⟨(x, vs.count x), hin, rfl⟩) hnot
    · have := (List.pairwise_append.mp hpw).2.2 p hp (x, vs.count x) hdrop
      rcases this with hlt | ⟨heq, _⟩
      · exact hlt.le
      · exact le_of_eq heq.symm

end Counting

/-! ### JSON values and the Style Annotator payload

`analyze_with_claude` (src/main.py:197-268) sends the image to the vision
model and runs `json.loads` on the response text.  `json.loads` either
raises `JSONDecodeError` (caught: the function returns a failure) or
produces an arbitrary JSON value, which the function returns unvalidated.
`JVal` models decoded JSON values; `JAtom` the hashable leaves (Python
`str`/`int`/`bool`/`None`) that may be counted by a `Counter`. -/

/-- A decoded JSON value (output of `json.loads`). -/
inductive JVal : Type where
  | str (s : String)
  | num (n : Int)
  | bool (b : Bool)
  | null
  | arr (elems : List JVal)
  | obj (fields : List (String × JVal))

/-- A hashable JSON leaf (Python can use these as `Counter` keys). -/
inductive JAtom : Type where
  | str (s : String)
  | num (n : Int)
  | bool (b : Bool)
  | null
  deriving DecidableEq

/-! String constants appearing in the source. -/

def kAnalysis : String := "analysis"
def kRecommendations : String := "recommendations"
def kKeyPieces : String := "key_pieces"
def kHairStyle : String := "hair_style"
def kStyleElements : String := "style_elements"
def kOutfitCombos : String := "outfit_combos"
def kHairSuggestions : String := "hair_suggestions"
def kMakeupTips : String := "makeup_tips"
def kAccessoryIdeas : String := "accessory_ideas"
def errParse : String := "Error parsing response"
def errAttr : String := "AttributeError: object has no attribute get"
def errUnhashable : String := "TypeError: unhashable type"
def errNotIterable : String := "TypeError: object is not iterable"
def msgSkip : String := "Skipping pin "
def msgProc : String := "Error processing pin "
def msgSep : String := ": "
def errEnterUrl : String := "Please enter a URL"
def errEnterValid : String := "Please enter at least one valid URL"
def errBoard : String := "Error processing board: "
def errNoPins : String := "No pins found in board"

/-- Python `dict` lookup on a decoded JSON object: with duplicate keys,
`json.loads` keeps the last occurrence. -/
def jlookup (fields : List (String × JVal)) (k : String) : Option JVal :=
  ((fields.filter (fun p => decide (p.1 = k))).getLast?).map Prod.snd

/-- `v.get(k, dflt)`: succeeds on a `dict` (returning the default when the
key is absent), raises `AttributeError` on any other value. -/
def jgetD (v : JVal) (k : String) (dflt : JVal) : Except String JVal :=
  match v with
  | .obj fields => .ok ((jlookup fields k).getD dflt)
  | _ => .error errAttr

/-- A JSON value as a `Counter` key: leaves are hashable, containers raise
`TypeError: unhashable type`. -/
def toAtom : JVal → Except String JAtom
  | .str s => .ok (.str s)
  | .num n => .ok (.num n)
  | .bool b => .ok (.bool b)
  | .null => .ok .null
  | .arr _ => .error errUnhashable
  | .obj _ => .error errUnhashable

def atomsOf : List JVal → Except String (List JAtom)
  | [] => .ok []
  | v :: rest =>
    match toAtom v, atomsOf rest with
    | .ok a, .ok as => .ok (a :: as)
    | .error e, _ => .error e
    | _, .error e => .error e

/-- Python iteration over a JSON value, as used by the flattening list
comprehensions in `display_style_summary`: a list yields its elements, a
string yields its characters (as 1-character strings), a dict yields its
keys, and numbers/booleans/`None` raise `TypeError`. -/
def pyIterAtoms : JVal → Except String (List JAtom)
  | .arr elems => atomsOf elems
  | .str s => .ok (s.data.map (fun c => JAtom.str (String.mk [c])))
  | .obj fields => .ok (fields.map (fun p => JAtom.str p.1))
  | .num _ => .error errNotIterable
  | .bool _ => .error errNotIterable
  | .null => .error errNotIterable

/-- One annotation's contribution to a semantic field:
`analysis.get(sect, {}).get(key, [])` followed by iteration
(src/main.py:395,405,415,428,438,448,458). -/
def fieldValues (a : JVal) (sect key : String) : Except String (List JAtom) :=
  match jgetD a sect (JVal.obj []) with
  | .error e => .error e
  | .ok sub =>
    match jgetD sub key (JVal.arr []) with
    | .error e => .error e
    | .ok v => pyIterAtoms v

/-- The flattening comprehension
`[x for a in analyses for x in a.get(sect, {}).get(key, [])]`. -/
def flattenField (analyses : List JVal) (sect key : String) : Except String (List JAtom) :=
  match analyses with
  | [] => .ok []
  | a :: rest =>
    match fieldValues a sect key, flattenField rest sect key with
    | .ok vs, .ok ws => .ok (vs ++ ws)
    | .error e, _ => .error e
    | _, .error e => .error e

/-- The response handling of `analyze_with_claude` (src/main.py:262-268):
`json.loads` failure (`none`) is caught and reported as a failure; any
successfully decoded value is returned as a successful annotation, with no
schema validation whatsoever. -/
def handleClaudeResponse (decoded : Option JVal) : Except String JVal :=
  match decoded with
  | none => .error errParse
  | some v => .ok v

/-! ### The Color Profiler: `get_dominant_colors` (src/main.py:168-195)

The code resizes the image to 150×150 (a PIL call, outside this embedding:
we take the resulting pixel list as input), reshapes it to a list of RGB
triples, runs `KMeans(n_clusters=n_colors, random_state=42).fit`, and for
each of the `n_colors` cluster indices emits
`{'hex': '#{:02x}{:02x}{:02x}'.format(*map(int, centers[i])),
  'percentage': counts[i] / total_pixels * 100}`,
finally sorting by percentage, descending.  Floats are modelled as exact
rationals. -/

/-- An RGB pixel: three 8-bit channels, as produced by
`np.array(img.convert('RGB')).reshape(-1, 3)`. -/
abbrev Pixel := Nat × Nat × Nat

/-- A rational RGB triple (cluster centroids are channel means). -/
abbrev QRGB := ℚ × ℚ × ℚ

def pixelToQ (p : Pixel) : QRGB := ((p.1 : ℚ), (p.2.1 : ℚ), (p.2.2 : ℚ))

/-- Squared euclidean distance between a centroid and a pixel. -/
def qdist (c : QRGB) (p : Pixel) : ℚ :=
  (c.1 - p.1) ^ 2 + (c.2.1 - p.2.1) ^ 2 + (c.2.2 - p.2.2) ^ 2

structure KMeansResult where
  centers : List QRGB
  labels : List Nat

/-- Modelled from the spec: the initialisation of
`sklearn.cluster.KMeans(n_clusters=n, random_state=seed)` is not in this
repository; the spec only requires a deterministic clustering for a fixed
seed.  We model a deterministic initialisation: the first `n` distinct
pixels, padded with the first pixel when fewer distinct colors exist. -/
def initCenters (pixels : List Pixel) (n : Nat) : List Pixel :=
  let d := (keepFirst pixels).take n
  d ++ List.replicate (n - d.length) (pixels.headD (0, 0, 0))

/-- Index of the nearest centroid (lowest index on ties). -/
def nearestIdx (centers : List QRGB) (p : Pixel) : Nat :=
  let ds := centers.map (fun c => qdist c p)
  ds.indexOf (ds.foldl min (ds.headD 0))

/-- The pixels assigned to cluster `i`. -/
def clusterPts (pixels : List Pixel) (labels : List Nat) (i : Nat) : List Pixel :=
  ((pixels.zip labels).filter (fun q => decide (q.2 = i))).map Prod.fst

def meanQ (l : List ℚ) : ℚ := l.sum / l.length

/-- Centroid of cluster `i`: the channel-wise mean of its pixels (k-means'
defining update step); an empty cluster keeps its initial center. -/
def clusterMean (pixels : List Pixel) (labels : List Nat) (i : Nat) (fallback : QRGB) : QRGB :=
  if clusterPts pixels labels i = [] then fallback
  else (meanQ ((clusterPts pixels labels i).map (fun p => (p.1 : ℚ))),
        meanQ ((clusterPts pixels labels i).map (fun p => (p.2.1 : ℚ))),
        meanQ ((clusterPts pixels labels i).map (fun p => (p.2.2 : ℚ))))

/-- The initial centroids as rational triples. -/
def kmeansInit (pixels : List Pixel) (n : Nat) : List QRGB :=
  (initCenters pixels n).map pixelToQ

/-- The cluster assignment: each pixel is labelled with its nearest
initial centroid. -/
def kmeansLabels (pixels : List Pixel) (n : Nat) : List Nat :=
  pixels.map (nearestIdx (kmeansInit pixels n))

/-- Modelled from the spec: `KMeans(n_clusters=n, random_state=seed).fit`
is an external library call.  The spec requires: a deterministic function
of (pixels, n, seed) returning exactly `n` centers (duplicates allowed when
fewer distinct colors exist) and one label per pixel, centers being cluster
means.  We model one Lloyd step from the deterministic initialisation; the
seed selects the initialisation and is ignored by our deterministic model. -/
def kmeansFit (pixels : List Pixel) (n : Nat) (_seed : Nat) : KMeansResult :=
  ⟨(List.range n).map (fun i => clusterMean pixels (kmeansLabels pixels n) i
      ((kmeansInit pixels n).getD i (0, 0, 0))),
    kmeansLabels pixels n⟩

/-- Python `int()` on a rational: truncation toward zero
(`tuple(map(int, colors[i]))` in the source). -/
def intPy (q : ℚ) : Int := q.num.tdiv q.den

/-- The lowercase hex digit for `n < 16` (`'{:02x}'.format`). -/
def hexDigit (n : Nat) : Char := if n < 10 then Char.ofNat (48 + n) else Char.ofNat (87 + n)

/-- `'{:02x}'.format(v)` for a channel value `v` (faithful for `v < 256`,
which always holds: channels are means of 8-bit values). -/
def byteHex (v : Nat) : String := String.mk [hexDigit (v / 16), hexDigit (v % 16)]

/-- `'#{:02x}{:02x}{:02x}'.format(*rgb)` applied to a truncated centroid:
exactly the hex string built at src/main.py:185-186. -/
def truncHexColor (c : QRGB) : String :=
  String.mk ['#'] ++ byteHex (intPy c.1).toNat ++ byteHex (intPy c.2.1).toNat
    ++ byteHex (intPy c.2.2).toNat

/-- Modelled from the spec: the spec's wording "round to the nearest
integer per channel".  Stated only to compare with the code's truncating
`truncHexColor`. -/
def specRoundHexColor (c : QRGB) : String :=
  String.mk ['#'] ++ byteHex (round c.1).toNat ++ byteHex (round c.2.1).toNat
    ++ byteHex (round c.2.2).toNat

def hexAlphabet : String := "0123456789abcdef"

def hexHash : Char := Char.ofNat 35

/-- An executable form of the regular expression
`^#[0-9a-f]\x7b6\x7d$`: a leading `#` followed by exactly six lowercase
hex digits. -/
def hexOk (s : String) : Bool :=
  match s.data with
  | c :: rest =>
    decide (c = hexHash) && decide (rest.length = 6) &&
      rest.all (fun d => decide (d ∈ hexAlphabet.data))
  | [] => false

/-- One entry of the list returned by `get_dominant_colors`:
`{'hex': ..., 'percentage': ...}`. -/
structure ColorObs where
  hex : String
  percentage : ℚ
  deriving DecidableEq

/-- `get_dominant_colors(img, n_colors)` with the clustering seed exposed
(the source hardcodes `random_state=42`).  Fails (`none`, modelling the
caught exception at src/main.py:194-195) when the clustering cannot run:
`n_colors = 0` or fewer samples than clusters (`sklearn` raises then). -/
def get_dominant_colors_seeded (pixels : List Pixel) (n_colors : Nat) (seed : Nat) :
    Option (List ColorObs) :=
  if n_colors = 0 ∨ pixels.length < n_colors then none
  else
    some (List.insertionSort (keyGe ColorObs.percentage)
      ((List.range n_colors).map (fun i =>
        ColorObs.mk (truncHexColor ((kmeansFit pixels n_colors seed).centers.getD i (0, 0, 0)))
          ((((kmeansFit pixels n_colors seed).labels.count i : ℚ) / (pixels.length : ℚ)) * 100))))

/-- `get_dominant_colors` as in the source: `random_state=42`, a fixed
constant. -/
def get_dominant_colors (pixels : List Pixel) (n_colors : Nat) : Option (List ColorObs) :=
  get_dominant_colors_seeded pixels n_colors 42

/-! ### The Aggregation Pipeline: `analyze_board_with_progress`
(src/main.py:270-364)

The loop body per source reference: `validate_image_url` (the Image
Resolver — network code, a parameter `R` here), then inside `try`:
decoding `Image.open(...).convert('RGB')` (PIL — parameter `D`), then the
Color Profiler (parameter `P`) extending `all_colors` on success, then the
Style Annotator (parameter `A`) appending to `all_analyses` on success.
A resolver failure produces a `st.warning("Skipping pin ...")` and
`continue`; an exception inside the `try` produces
`st.warning("Error processing pin ...")` and `continue`; profiler and
annotator failures are guarded by plain `if` and leave no trace.
The progress bar, image display and per-pin expander are presentation and
are not modelled. -/

/-- The running state of the pipeline: the two append-only collections of
the source, plus the warnings issued and the sources attempted (the latter
two record the observable effects needed by the claims). -/
structure AggState (σ : Type) where
  all_colors : List ColorObs
  all_analyses : List JVal
  warnings : List String
  attempts : List σ

def AggState.init {σ : Type} : AggState σ := ⟨[], [], [], []⟩

variable {σ β ι : Type}

/-- One iteration of the pipeline loop (index `i`, source `u`). -/
def processItem (R : σ → Except String β) (D : β → Except String ι)
    (P : ι → Option (List ColorObs)) (A : ι → Option JVal)
    (i : Nat) (u : σ) (s : AggState σ) : AggState σ :=
  let s := { s with attempts := s.attempts ++ [u] }
  match R u with
  | .error e => { s with warnings := s.warnings ++ [msgSkip ++ toString (i + 1) ++ msgSep ++ e] }
  | .ok b =>
    match D b with
    | .error e => { s with warnings := s.warnings ++ [msgProc ++ toString (i + 1) ++ msgSep ++ e] }
    | .ok img =>
      let s :=
        match P img with
        | some cs => { s with all_colors := s.all_colors ++ cs }
        | none => s
      match A img with
      | some a => { s with all_analyses := s.all_analyses ++ [a] }
      | none => s

def runFrom (R : σ → Except String β) (D : β → Except String ι)
    (P : ι → Option (List ColorObs)) (A : ι → Option JVal) :
    Nat → List σ → AggState σ → AggState σ
  | _, [], s => s
  | i, u :: rest, s => runFrom R D P A (i + 1) rest (processItem R D P A i u s)

/-- The whole loop of `analyze_board_with_progress` over `urls`, starting
from empty collections. -/
def analyze_board_with_progress (R : σ → Except String β) (D : β → Except String ι)
    (P : ι → Option (List ColorObs)) (A : ι → Option JVal) (urls : List σ) : AggState σ :=
  runFrom R D P A 0 urls AggState.init

/-- The colors one source contributes (empty unless resolve, decode and the
profiler all succeed). -/
def itemColors (R : σ → Except String β) (D : β → Except String ι)
    (P : ι → Option (List ColorObs)) (u : σ) : List ColorObs :=
  match R u with
  | .error _ => []
  | .ok b =>
    match D b with
    | .error _ => []
    | .ok img => (P img).getD []

/-- The annotation one source contributes. -/
def itemAnnot (R : σ → Except String β) (D : β → Except String ι)
    (A : ι → Option JVal) (u : σ) : Option JVal :=
  match R u with
  | .error _ => none
  | .ok b =>
    match D b with
    | .error _ => none
    | .ok img => A img

/-- The warning one indexed source produces: only resolver failures and
decode exceptions are reported; profiler and annotator failures are not. -/
def itemWarn (R : σ → Except String β) (D : β → Except String ι)
    (iu : Nat × σ) : Option String :=
  match R iu.2 with
  | .error e => some (msgSkip ++ toString (iu.1 + 1) ++ msgSep ++ e)
  | .ok b =>
    match D b with
    | .error e => some (msgProc ++ toString (iu.1 + 1) ++ msgSep ++ e)
    | .ok _ => none

/-! ### The button handler (src/main.py:476-510)

`st.button("Analyze Style")`: empty input shows "Please enter a URL".  The
individual-pins branch splits the textarea on newlines, strips each line,
drops empty lines, errors when nothing remains, and otherwise runs the
pipeline on ALL resulting urls.  The board branch calls
`extract_pins_from_board` (network, a parameter), errors on failure or an
empty pin list, truncates to the first 10 pins when more were found, and
runs the pipeline. -/

/-- Python `str.split('\n')` on a character list. -/
def splitLinesAux : List Char → List Char → List (List Char)
  | [], acc => [acc.reverse]
  | c :: cs, acc =>
    if c = Char.ofNat 10 then acc.reverse :: splitLinesAux cs []
    else splitLinesAux cs (c :: acc)

def splitLines (s : List Char) : List (List Char) := splitLinesAux s []

/-- Python `str.strip()`: drop ASCII whitespace from both ends. -/
def pySpace (c : Char) : Bool :=
  c = Char.ofNat 32 ∨ c = Char.ofNat 9 ∨ c = Char.ofNat 10 ∨
    c = Char.ofNat 13 ∨ c = Char.ofNat 11 ∨ c = Char.ofNat 12

def pyStrip (s : List Char) : List Char :=
  ((s.dropWhile pySpace).reverse.dropWhile pySpace).reverse

/-- `[url.strip() for url in urls_input.split('\n') if url.strip()]`
(src/main.py:481). -/
def cleanedUrls (input : String) : List (List Char) :=
  ((splitLines input.data).map pyStrip).filter (fun u => decide (u ≠ []))

/-- The individual-pins branch of the button handler: both empty-input
guards, then the pipeline on all urls, untruncated (src/main.py:476-487). -/
def individualHandler (R : List Char → Except String β) (D : β → Except String ι)
    (P : ι → Option (List ColorObs)) (A : ι → Option JVal) (input : String) :
    Except String (AggState (List Char)) :=
  if input.data = [] then .error errEnterUrl
  else
    let urls := cleanedUrls input
    if urls = [] then .error errEnterValid
    else .ok (analyze_board_with_progress R D P A urls)

/-- The board branch of the button handler: extract pins (external network
call `extract`), error on failure or no pins, truncate to the first 10 when
more than 10 were found, then run the pipeline (src/main.py:488-510). -/
def boardHandler (extract : String → Except String (List σ))
    (R : σ → Except String β) (D : β → Except String ι)
    (P : ι → Option (List ColorObs)) (A : ι → Option JVal) (input : String) :
    Except String (AggState σ) :=
  if input.data = [] then .error errEnterUrl
  else
    match extract input with
    | .error e => .error (errBoard ++ e)
    | .ok [] => .error errNoPins
    | .ok pins =>
      let board_pins := if pins.length > 10 then pins.take 10 else pins
      .ok (analyze_board_with_progress R D P A board_pins)

/-! ### The Summary Reducer: `display_style_summary` (src/main.py:377-474)

Pure content of the rendering: for each semantic field, flatten the
per-image values and rank them with `Counter(...).most_common(N)`; the `N`
used by the source are: colors 8, key pieces 8, hair styles 5, style
elements 5, outfit combos 6, hair suggestions 4, makeup tips 4, accessory
ideas 5.  An annotation whose flattening raises propagates the exception
(the function has no try/except), modelled by `Except`. -/

structure StyleSummary where
  topColors : List (String × Nat)
  topPieces : List (JAtom × Nat)
  topHair : List (JAtom × Nat)
  topElements : List (JAtom × Nat)
  topOutfits : List (JAtom × Nat)
  topHairIdeas : List (JAtom × Nat)
  topMakeup : List (JAtom × Nat)
  topAccessories : List (JAtom × Nat)

def display_style_summary (all_colors : List ColorObs) (all_analyses : List JVal) :
    Except String StyleSummary :=
  match flattenField all_analyses kAnalysis kKeyPieces with
  | .error e => .error e
  | .ok pieces =>
    match flattenField all_analyses kAnalysis kHairStyle with
    | .error e => .error e
    | .ok hair =>
      match flattenField all_analyses kAnalysis kStyleElements with
      | .error e => .error e
      | .ok elements =>
        match flattenField all_analyses kRecommendations kOutfitCombos with
        | .error e => .error e
        | .ok outfits =>
          match flattenField all_analyses kRecommendations kHairSuggestions with
          | .error e => .error e
          | .ok hairIdeas =>
            match flattenField all_analyses kRecommendations kMakeupTips with
            | .error e => .error e
            | .ok makeup =>
              match flattenField all_analyses kRecommendations kAccessoryIdeas with
              | .error e => .error e
              | .ok accessories =>
                .ok ⟨mostCommon 8 (all_colors.map ColorObs.hex),
                     mostCommon 8 pieces, mostCommon 5 hair, mostCommon 5 elements,
                     mostCommon 6 outfits, mostCommon 4 hairIdeas,
                     mostCommon 4 makeup, mostCommon 5 accessories⟩

/-! ### Characterisation of the pipeline loop -/

lemma runFrom_spec (R : σ → Except String β) (D : β → Except String ι)
    (P : ι → Option (List ColorObs)) (A : ι → Option JVal) :
    ∀ (us : List σ) (i : Nat) (s : AggState σ),
      runFrom R D P A i us s =
        ⟨s.all_colors ++ us.flatMap (itemColors R D P),
         s.all_analyses ++ us.filterMap (itemAnnot R D A),
         s.warnings ++ (List.enumFrom i us).filterMap (itemWarn R D),
         s.attempts ++ us⟩
  | [], i, s => by simp [runFrom]
  | u :: rest, i, s => by
    rw [runFrom, runFrom_spec R D P A rest (i + 1) _]
    rcases hR : R u with e | b
    · simp [processItem, hR, itemColors, itemAnnot, itemWarn, List.enumFrom,
        List.filterMap_cons]
    · rcases hD : D b with e | img
      · simp [processItem, hR, hD, itemColors, itemAnnot, itemWarn, List.enumFrom,
          List.filterMap_cons]
      · rcases hP : P img with _ | cs <;> rcases hA : A img with _ | a <;>
          simp [processItem, hR, hD, hP, hA, itemColors, itemAnnot, itemWarn,
            List.enumFrom, List.filterMap_cons]

/-- The pipeline is a per-item homomorphism: each collection is exactly the
concatenation of independent per-item contributions. -/
lemma run_spec (R : σ → Except String β) (D : β → Except String ι)
    (P : ι → Option (List ColorObs)) (A : ι → Option JVal) (urls : List σ) :
    analyze_board_with_progress R D P A urls =
      ⟨urls.flatMap (itemColors R D P), urls.filterMap (itemAnnot R D A),
       (List.enumFrom 0 urls).filterMap (itemWarn R D), urls⟩ := by
  rw [analyze_board_with_progress, runFrom_spec]
  simp [AggState.init]

/-! ### Concrete collaborators used by witnesses and counterexamples -/

def strFail : String := "connection error"
def hexBlack : String := "#000000"
def hexOne : String := "#000001"
def cResolveOk : Nat → Except String Unit := fun _ => .ok ()
def cResolveFail2 : Nat → Except String Unit := fun u => if u = 2 then .error strFail else .ok ()
def cDecodeOk : Unit → Except String Unit := fun _ => .ok ()
def cProfileNone : Unit → Option (List ColorObs) := fun _ => none
def cProfileOne : Unit → Option (List ColorObs) := fun _ => some [ColorObs.mk hexBlack 100]
def cAnnotOk : Unit → Option JVal := fun _ => some (JVal.obj [])
def cAnnotNone : Unit → Option JVal := fun _ => none

/-! ### Claim C1 -/

/-- C1 (amended): every per-item failure is caught inside the pipeline loop
and processing continues — no failure propagates out of the loop, and the
collections are per-item homomorphic, so the contributions recorded for
every other item are exactly what they would be if a non-contributing item
were absent.  However only resolver failures and decode exceptions are
recorded (as warnings); Color Profiler and Style Annotator failures are
skipped silently, leaving no recorded outcome. -/
theorem c1_partial_failure_isolation (R : σ → Except String β) (D : β → Except String ι)
    (P : ι → Option (List ColorObs)) (A : ι → Option JVal) (urls : List σ) :
    (analyze_board_with_progress R D P A urls).all_colors = urls.flatMap (itemColors R D P) ∧
    (analyze_board_with_progress R D P A urls).all_analyses =
      urls.filterMap (itemAnnot R D A) ∧
    (analyze_board_with_progress R D P A urls).warnings =
      (List.enumFrom 0 urls).filterMap (itemWarn R D) ∧
    (analyze_board_with_progress R D P A urls).attempts = urls ∧
    (∀ xs ys u, itemColors R D P u = [] → itemAnnot R D A u = none →
      (analyze_board_with_progress R D P A (xs ++ u :: ys)).all_colors =
        (analyze_board_with_progress R D P A (xs ++ ys)).all_colors ∧
      (analyze_board_with_progress R D P A (xs ++ u :: ys)).all_analyses =
        (analyze_board_with_progress R D P A (xs ++ ys)).all_analyses) := by
  refine ⟨by rw [run_spec], by rw [run_spec], by rw [run_spec], by rw [run_spec], ?_⟩
  intro xs ys u hc ha
  constructor <;> rw [run_spec, run_spec] <;> simp [hc, ha]

theorem c1_witness :
    (analyze_board_with_progress cResolveFail2 cDecodeOk cProfileOne cAnnotOk
        ([1] ++ 2 :: [3])).all_colors =
      (analyze_board_with_progress cResolveFail2 cDecodeOk cProfileOne cAnnotOk
        ([1] ++ [3])).all_colors ∧
    (analyze_board_with_progress cResolveFail2 cDecodeOk cProfileOne cAnnotOk
        ([1] ++ 2 :: [3])).all_analyses =
      (analyze_board_with_progress cResolveFail2 cDecodeOk cProfileOne cAnnotOk
        ([1] ++ [3])).all_analyses :=
  (c1_partial_failure_isolation cResolveFail2 cDecodeOk cProfileOne cAnnotOk
    []).2.2.2.2 [1] [3] 2 rfl rfl

/-- C1 counterexample: for a successfully resolved item whose Color
Profiler fails, the run issues no warning and records no outcome of any
kind — the failure is not "recorded", contradicting the claim that all
three per-item failure kinds are converted into a recorded outcome
(processing does continue: the annotator's result is still collected). -/
theorem c1_counterexample :
    cProfileNone () = none ∧
    (analyze_board_with_progress cResolveOk cDecodeOk cProfileNone cAnnotOk [0]).warnings =
      [] ∧
    (analyze_board_with_progress cResolveOk cDecodeOk cProfileNone cAnnotOk
      [0]).all_analyses = [JVal.obj []] :=
  ⟨rfl, rfl, rfl⟩

/-! ### Claim C2 -/

/-- C2: for a successfully resolved image, the Color Profiler and the Style
Annotator are invoked independently on the same resolved data; if exactly
one of the two fails, the other's result is still appended to its running
collection, and the run does not abort. -/
theorem c2_independent_analyzers (R : σ → Except String β) (D : β → Except String ι)
    (P : ι → Option (List ColorObs)) (A : ι → Option JVal) (u : σ) (b : β) (img : ι)
    (cs : List ColorObs) (a : JVal) :
    (R u = .ok b → D b = .ok img → P img = some cs → A img = none →
      (analyze_board_with_progress R D P A [u]).all_colors = cs ∧
      (analyze_board_with_progress R D P A [u]).all_analyses = []) ∧
    (R u = .ok b → D b = .ok img → P img = none → A img = some a →
      (analyze_board_with_progress R D P A [u]).all_colors = [] ∧
      (analyze_board_with_progress R D P A [u]).all_analyses = [a]) := by
  constructor <;> intro hR hD hP hA <;>
    simp [run_spec, itemColors, itemAnnot, hR, hD, hP, hA]

theorem c2_witness :
    ((analyze_board_with_progress cResolveOk cDecodeOk cProfileOne cAnnotNone
        [0]).all_colors = [ColorObs.mk hexBlack 100] ∧
      (analyze_board_with_progress cResolveOk cDecodeOk cProfileOne cAnnotNone
        [0]).all_analyses = []) ∧
    ((analyze_board_with_progress cResolveOk cDecodeOk cProfileNone cAnnotOk
        [0]).all_colors = [] ∧
      (analyze_board_with_progress cResolveOk cDecodeOk cProfileNone cAnnotOk
        [0]).all_analyses = [JVal.obj []]) :=
  ⟨(c2_independent_analyzers cResolveOk cDecodeOk cProfileOne cAnnotNone 0 () ()
      [ColorObs.mk hexBlack 100] (JVal.obj [])).1 rfl rfl rfl rfl,
   (c2_independent_analyzers cResolveOk cDecodeOk cProfileNone cAnnotOk 0 () ()
      [] (JVal.obj [])).2 rfl rfl rfl rfl⟩

/-! ### Claims C5 and C4: the button handler -/

lemma cleanedUrls_of_data_nil (input : String) (h : input.data = []) :
    cleanedUrls input = [] := by
  simp [cleanedUrls, splitLines, h, splitLinesAux, pyStrip]

def cResolveListOk : List Char → Except String Unit := fun _ => .ok ()
def cResolveListFail : List Char → Except String Unit := fun _ => .error strFail
def inputBlankish : String := "  \n "
def inputTwo : String := "ab\ncd"
def inputBoard : String := "board"
def extract12 : String → Except String (List Nat) := fun _ => .ok (List.range 12)

/-- C5: the run fails if and only if the (cleaned) source list is empty,
that failure is produced without invoking any collaborator (the handler's
outcome is then independent of the collaborators), and for every non-empty
source list — even one on which every resolve fails — the run returns a
valid aggregate state (possibly with empty collections) instead of
aborting. -/
theorem c5_empty_input_fatal {β2 ι2 : Type} (R : List Char → Except String β)
    (D : β → Except String ι) (P : ι → Option (List ColorObs)) (A : ι → Option JVal)
    (R2 : List Char → Except String β2) (D2 : β2 → Except String ι2)
    (P2 : ι2 → Option (List ColorObs)) (A2 : ι2 → Option JVal) (input : String) :
    (individualHandler R D P A input =
        .ok (analyze_board_with_progress R D P A (cleanedUrls input)) ↔
      cleanedUrls input ≠ []) ∧
    (cleanedUrls input = [] →
      individualHandler R D P A input = individualHandler R2 D2 P2 A2 input) ∧
    ((∀ u, ∃ e, R u = .error e) → cleanedUrls input ≠ [] →
      ∃ s, individualHandler R D P A input = .ok s ∧
        s.all_colors = [] ∧ s.all_analyses = [] ∧ s.attempts = cleanedUrls input) := by
  refine ⟨?_, ?_, ?_⟩
  · by_cases h0 : input.data = []
    · have hc := cleanedUrls_of_data_nil input h0
      simp [individualHandler, h0, hc]
    · by_cases hc : cleanedUrls input = []
      · simp [individualHandler, h0, hc]
      · simp [individualHandler, h0, hc]
  · intro hc
    by_cases h0 : input.data = [] <;> simp [individualHandler, h0, hc]
  · intro hall hc
    have h0 : input.data ≠ [] := fun h => hc (cleanedUrls_of_data_nil input h)
    refine ⟨analyze_board_with_progress R D P A (cleanedUrls input), ?_, ?_, ?_, ?_⟩
    · simp [individualHandler, h0, hc]
    · rw [run_spec]
      simp only
      rw [List.flatMap_eq_nil_iff]
      intro u _
      obtain ⟨e, he⟩ := hall u
      simp [itemColors, he]
    · rw [run_spec]
      simp only
      rw [List.filterMap_eq_nil_iff]
      intro u _
      obtain ⟨e, he⟩ := hall u
      simp [itemAnnot, he]
    · rw [run_spec]

theorem c5_witness :
    (individualHandler cResolveListFail cDecodeOk cProfileOne cAnnotOk inputBlankish =
      individualHandler cResolveListOk cDecodeOk cProfileNone cAnnotNone inputBlankish) ∧
    (∃ s, individualHandler cResolveListFail cDecodeOk cProfileOne cAnnotOk inputTwo =
        .ok s ∧ s.all_colors = [] ∧ s.all_analyses = [] ∧
        s.attempts = cleanedUrls inputTwo) :=
  ⟨(c5_empty_input_fatal cResolveListFail cDecodeOk cProfileOne cAnnotOk
      cResolveListOk cDecodeOk cProfileNone cAnnotNone inputBlankish).2.1 (by decide),
   (c5_empty_input_fatal cResolveListFail cDecodeOk cProfileOne cAnnotOk
      cResolveListOk cDecodeOk cProfileNone cAnnotNone inputTwo).2.2
      (fun _ => ⟨strFail, rfl⟩) (by decide)⟩

lemma board_take10 {σ : Type} (pins : List σ) :
    (if pins.length > 10 then pins.take 10 else pins) = pins.take 10 := by
  by_cases h : pins.length > 10
  · rw [if_pos h]
  · rw [if_neg h]
    exact (List.take_of_length_le (Nat.le_of_not_lt h)).symm

/-- C4 (amended): in the board branch the pin list is truncated to its
first 10 elements (a stable prefix) before the pipeline — and hence before
any per-pin resolver call — runs, and pins beyond the bound are never
attempted; but in the individual-pins branch no truncation is applied at
all: every entered URL is passed to the Image Resolver. -/
theorem c4_truncation {β2 ι2 : Type} (extract : String → Except String (List σ))
    (R : σ → Except String β) (D : β → Except String ι) (P : ι → Option (List ColorObs))
    (A : ι → Option JVal) (input : String) (pins : List σ)
    (R2 : List Char → Except String β2) (D2 : β2 → Except String ι2)
    (P2 : ι2 → Option (List ColorObs)) (A2 : ι2 → Option JVal) (input2 : String) :
    (input.data ≠ [] → extract input = .ok pins → pins ≠ [] →
      boardHandler extract R D P A input =
        .ok (analyze_board_with_progress R D P A (pins.take 10)) ∧
      (analyze_board_with_progress R D P A (pins.take 10)).attempts = pins.take 10 ∧
      (pins.Nodup → ∀ u ∈ pins.drop 10,
        u ∉ (analyze_board_with_progress R D P A (pins.take 10)).attempts)) ∧
    (cleanedUrls input2 ≠ [] →
      individualHandler R2 D2 P2 A2 input2 =
        .ok (analyze_board_with_progress R2 D2 P2 A2 (cleanedUrls input2)) ∧
      (analyze_board_with_progress R2 D2 P2 A2 (cleanedUrls input2)).attempts =
        cleanedUrls input2) := by
  constructor
  · intro h0 hE hne
    refine ⟨?_, by rw [run_spec], ?_⟩
    · cases pins with
      | nil => exact absurd rfl hne
      | cons p ps =>
        simp only [boardHandler]
        rw [if_neg h0, hE]
        show Except.ok (analyze_board_with_progress R D P A
            (if (p :: ps).length > 10 then (p :: ps).take 10 else p :: ps)) = _
        rw [board_take10]
    · intro hnd u hu
      rw [run_spec]
      simp only
      intro hmem
      have hsplit : (pins.take 10 ++ pins.drop 10).Nodup := by
        rw [List.take_append_drop]; exact hnd
      exact (List.nodup_append.mp hsplit).2.2 hmem hu
  · intro hc
    have h0 : input2.data ≠ [] := fun h => hc (cleanedUrls_of_data_nil input2 h)
    exact ⟨by simp [individualHandler, h0, hc], by rw [run_spec]⟩

theorem c4_witness :
    (boardHandler extract12 cResolveOk cDecodeOk cProfileNone cAnnotNone inputBoard =
        .ok (analyze_board_with_progress cResolveOk cDecodeOk cProfileNone cAnnotNone
          ((List.range 12).take 10)) ∧
      (analyze_board_with_progress cResolveOk cDecodeOk cProfileNone cAnnotNone
        ((List.range 12).take 10)).attempts = (List.range 12).take 10) ∧
    (individualHandler cResolveListOk cDecodeOk cProfileNone cAnnotNone inputTwo =
        .ok (analyze_board_with_progress cResolveListOk cDecodeOk cProfileNone cAnnotNone
          (cleanedUrls inputTwo)) ∧
      (analyze_board_with_progress cResolveListOk cDecodeOk cProfileNone cAnnotNone
        (cleanedUrls inputTwo)).attempts = cleanedUrls inputTwo) := by
  have h := c4_truncation extract12 cResolveOk cDecodeOk cProfileNone cAnnotNone inputBoard
    (List.range 12) cResolveListOk cDecodeOk cProfileNone cAnnotNone inputTwo
  exact ⟨⟨(h.1 (by decide) rfl (by decide)).1, (h.1 (by decide) rfl (by decide)).2.1⟩,
    h.2 (by decide)⟩

/-- The attempted sources of a handler outcome (empty when it failed). -/
def attemptsOf : Except String (AggState (List Char)) → List (List Char)
  | .ok s => s.attempts
  | .error _ => []

def input21 : String := "a\na\na\na\na\na\na\na\na\na\na\na\na\na\na\na\na\na\na\na\na"

/-- C4 counterexample: in the individual-pins branch, a textarea with 21
URL lines leads to all 21 being attempted by the resolver — no prefix
truncation to any documented `max_items` bound (5, 10 or 20) happens. -/
theorem c4_counterexample :
    attemptsOf (individualHandler cResolveListOk cDecodeOk cProfileNone cAnnotNone
        input21) = cleanedUrls input21 ∧
    (cleanedUrls input21).length = 21 ∧
    attemptsOf (individualHandler cResolveListOk cDecodeOk cProfileNone cAnnotNone
        input21) ≠ (cleanedUrls input21).take 10 ∧
    attemptsOf (individualHandler cResolveListOk cDecodeOk cProfileNone cAnnotNone
        input21) ≠ (cleanedUrls input21).take 20 := by
  refine ⟨rfl, rfl, by decide, by decide⟩

/-! ### Claim C6: the Summary Reducer -/

/-- C6: each semantic field is ranked independently by counting exact,
case-sensitive matches over the flattened per-image values, sorted
descending by count with ties broken by first-observed order, and truncated
to the per-field top-N used by the source: colors 8, key pieces 8, hair
styles 5, style elements 5, outfit combinations 6, hair suggestions 4,
makeup tips 4, accessory ideas 5. -/
theorem c6_reduction_ranking (all_colors : List ColorObs) (all_analyses : List JVal)
    (s : StyleSummary) (h : display_style_summary all_colors all_analyses = .ok s) :
    (s.topColors = mostCommon 8 (all_colors.map ColorObs.hex) ∧
      RankedOk (all_colors.map ColorObs.hex) 8 s.topColors) ∧
    (∀ vs, flattenField all_analyses kAnalysis kKeyPieces = .ok vs →
      s.topPieces = mostCommon 8 vs ∧ RankedOk vs 8 s.topPieces) ∧
    (∀ vs, flattenField all_analyses kAnalysis kHairStyle = .ok vs →
      s.topHair = mostCommon 5 vs ∧ RankedOk vs 5 s.topHair) ∧
    (∀ vs, flattenField all_analyses kAnalysis kStyleElements = .ok vs →
      s.topElements = mostCommon 5 vs ∧ RankedOk vs 5 s.topElements) ∧
    (∀ vs, flattenField all_analyses kRecommendations kOutfitCombos = .ok vs →
      s.topOutfits = mostCommon 6 vs ∧ RankedOk vs 6 s.topOutfits) ∧
    (∀ vs, flattenField all_analyses kRecommendations kHairSuggestions = .ok vs →
      s.topHairIdeas = mostCommon 4 vs ∧ RankedOk vs 4 s.topHairIdeas) ∧
    (∀ vs, flattenField all_analyses kRecommendations kMakeupTips = .ok vs →
      s.topMakeup = mostCommon 4 vs ∧ RankedOk vs 4 s.topMakeup) ∧
    (∀ vs, flattenField all_analyses kRecommendations kAccessoryIdeas = .ok vs →
      s.topAccessories = mostCommon 5 vs ∧ RankedOk vs 5 s.topAccessories) := by
  rcases h1 : flattenField all_analyses kAnalysis kKeyPieces with e1 | pieces
  · simp [display_style_summary, h1] at h
  rcases h2 : flattenField all_analyses kAnalysis kHairStyle with e2 | hair
  · simp [display_style_summary, h1, h2] at h
  rcases h3 : flattenField all_analyses kAnalysis kStyleElements with e3 | elements
  · simp [display_style_summary, h1, h2, h3] at h
  rcases h4 : flattenField all_analyses kRecommendations kOutfitCombos with e4 | outfits
  · simp [display_style_summary, h1, h2, h3, h4] at h
  rcases h5 : flattenField all_analyses kRecommendations kHairSuggestions with e5 | hairIdeas
  · simp [display_style_summary, h1, h2, h3, h4, h5] at h
  rcases h6 : flattenField all_analyses kRecommendations kMakeupTips with e6 | makeup
  · simp [display_style_summary, h1, h2, h3, h4, h5, h6] at h
  rcases h7 : flattenField all_analyses kRecommendations kAccessoryIdeas with e7 | accessories
  · simp [display_style_summary, h1, h2, h3, h4, h5, h6, h7] at h
  rw [display_style_summary, h1, h2, h3, h4, h5, h6, h7] at h
  have hs := Except.ok.inj h
  subst hs
  refine ⟨⟨rfl, mostCommon_rankedOk 8 _⟩, ?_, ?_, ?_, ?_, ?_, ?_, ?_⟩
  · intro vs hvs
    cases Except.ok.inj hvs
    exact ⟨rfl, mostCommon_rankedOk 8 _⟩
  · intro vs hvs
    cases Except.ok.inj hvs
    exact ⟨rfl, mostCommon_rankedOk 5 _⟩
  · intro vs hvs
    cases Except.ok.inj hvs
    exact ⟨rfl, mostCommon_rankedOk 5 _⟩
  · intro vs hvs
    cases Except.ok.inj hvs
    exact ⟨rfl, mostCommon_rankedOk 6 _⟩
  · intro vs hvs
    cases Except.ok.inj hvs
    exact ⟨rfl, mostCommon_rankedOk 4 _⟩
  · intro vs hvs
    cases Except.ok.inj hvs
    exact ⟨rfl, mostCommon_rankedOk 4 _⟩
  · intro vs hvs
    cases Except.ok.inj hvs
    exact ⟨rfl, mostCommon_rankedOk 5 _⟩

def sMin : String := "minimalist"
def sBoho : String := "boho"
def vs0 : List JAtom := [JAtom.str sMin, JAtom.str sMin, JAtom.str sBoho, JAtom.str sMin]
def ann0 : JVal :=
  JVal.obj [(kAnalysis, JVal.obj [(kStyleElements,
    JVal.arr [JVal.str sMin, JVal.str sMin, JVal.str sBoho, JVal.str sMin])])]
def wSummary : StyleSummary :=
  ⟨[], [], [], [(JAtom.str sMin, 3), (JAtom.str sBoho, 1)], [], [], [], []⟩

theorem c6_witness :
    wSummary.topElements = mostCommon 5 vs0 ∧ RankedOk vs0 5 wSummary.topElements :=
  (c6_reduction_ranking [] [ann0] wSummary rfl).2.2.2.1 vs0 rfl

/-! ### Claim C7: defensive handling of the annotator response -/

def isArr : JVal → Bool
  | .arr _ => true
  | _ => false

def badAnn : JVal := JVal.obj [(kAnalysis, JVal.obj [(kKeyPieces, JVal.num 3)])]

/-- C7 counterexample: a JSON-decodable payload whose known key
`analysis.key_pieces` holds the non-list value `3` is accepted by the
response handling as a successful annotation (no `AnnotationFailure`), and
flattening it later raises (`TypeError`) instead of having been rejected. -/
theorem c7_counterexample :
    handleClaudeResponse (some badAnn) = .ok badAnn ∧
    (match jgetD badAnn kAnalysis (JVal.obj []) with
     | .ok sub => jgetD sub kKeyPieces (JVal.arr [])
     | .error e => .error e) = .ok (JVal.num 3) ∧
    isArr (JVal.num 3) = false ∧
    flattenField [badAnn] kAnalysis kKeyPieces = .error errNotIterable :=
  ⟨rfl, rfl, rfl, rfl⟩

/-- C7 (amended): a payload that does not decode as JSON yields an
annotator failure (never a crash), but a decoded payload is returned as a
successful annotation without any schema validation; a missing key defaults
to an empty list only later, at the consumption sites (`dict.get`
defaults); a non-list string value under a known key is coerced (iterated
character-wise) during flattening, and a non-iterable value makes the
flattening raise instead of producing an `AnnotationFailure`. -/
theorem c7_schema_handling :
    handleClaudeResponse none = .error errParse ∧
    (∀ v, handleClaudeResponse (some v) = .ok v) ∧
    (∀ sect key rest, flattenField (JVal.obj [] :: rest) sect key =
      flattenField rest sect key) ∧
    (∀ s, pyIterAtoms (JVal.str s) =
      .ok (s.data.map (fun c => JAtom.str (String.mk [c])))) ∧
    (∀ n, pyIterAtoms (JVal.num n) = .error errNotIterable) := by
  refine ⟨rfl, fun v => rfl, ?_, fun s => rfl, fun n => rfl⟩
  intro sect key rest
  cases h : flattenField rest sect key <;>
    simp [flattenField, fieldValues, jgetD, jlookup, pyIterAtoms, atomsOf, h]

/-! ### Structural lemmas about the clustering model -/

lemma length_initCenters (pixels : List Pixel) (n : Nat) :
    (initCenters pixels n).length = n := by
  rw [initCenters]
  simp only [List.length_append, List.length_replicate]
  have : ((keepFirst pixels).take n).length ≤ n := by
    rw [List.length_take]; omega
  omega

lemma length_kmeansInit (pixels : List Pixel) (n : Nat) :
    (kmeansInit pixels n).length = n := by
  rw [kmeansInit, List.length_map, length_initCenters]

lemma foldl_min_mem : ∀ (l : List ℚ) (a : ℚ), l.foldl min a = a ∨ l.foldl min a ∈ l
  | [], _ => Or.inl rfl
  | x :: xs, a => by
    rw [List.foldl_cons]
    rcases foldl_min_mem xs (min a x) with h | h
    · rw [h]
      rcases min_choice a x with h' | h'
      · exact Or.inl h'
      · exact Or.inr (by rw [h']; exact List.mem_cons_self x xs)
    · exact Or.inr (List.mem_cons_of_mem x h)

lemma nearestIdx_lt (cs : List QRGB) (p : Pixel) (h : cs ≠ []) :
    nearestIdx cs p < cs.length := by
  show (cs.map (fun c => qdist c p)).indexOf
      ((cs.map (fun c => qdist c p)).foldl min ((cs.map (fun c => qdist c p)).headD 0)) <
    cs.length
  have hne : cs.map (fun c => qdist c p) ≠ [] := by
    intro hh
    exact h (List.map_eq_nil_iff.mp hh)
  have hmem : (cs.map (fun c => qdist c p)).foldl min
      ((cs.map (fun c => qdist c p)).headD 0) ∈ cs.map (fun c => qdist c p) := by
    rcases foldl_min_mem (cs.map (fun c => qdist c p))
        ((cs.map (fun c => qdist c p)).headD 0) with h' | h'
    · rw [h']
      cases hcs : cs.map (fun c => qdist c p) with
      | nil => exact absurd hcs hne
      | cons d ds => simp
    · exact h'
  have := List.indexOf_lt_length.mpr hmem
  rwa [List.length_map] at this

lemma kmeansLabels_lt (pixels : List Pixel) (n : Nat) (hn : 0 < n) :
    ∀ x ∈ kmeansLabels pixels n, x < n := by
  intro x hx
  rw [kmeansLabels] at hx
  rcases List.mem_map.mp hx with ⟨p, _, rfl⟩
  have hne : kmeansInit pixels n ≠ [] := by
    intro h
    have := length_kmeansInit pixels n
    rw [h] at this
    simp at this
    omega
  have := nearestIdx_lt (kmeansInit pixels n) p hne
  rwa [length_kmeansInit] at this

lemma length_kmeansLabels (pixels : List Pixel) (n : Nat) :
    (kmeansLabels pixels n).length = pixels.length := by
  rw [kmeansLabels, List.length_map]

/-! ### Counting arithmetic: the per-cluster counts sum to the number of
pixels -/

lemma sum_map_add (L : List Nat) (f g : Nat → Nat) :
    (L.map (fun i => f i + g i)).sum = (L.map f).sum + (L.map g).sum := by
  induction L with
  | nil => simp
  | cons a as ih => simp [ih]; omega

lemma sum_indicator_zero (x : Nat) : ∀ (L : List Nat), x ∉ L →
    (L.map (fun i => if x = i then 1 else 0)).sum = 0
  | [], _ => rfl
  | a :: as, h => by
    have hxa : x ≠ a := fun hh => h (hh ▸ List.mem_cons_self a as)
    have hxs : x ∉ as := fun hh => h (List.mem_cons_of_mem a hh)
    simp [hxa, sum_indicator_zero x as hxs]

lemma sum_indicator_one (x : Nat) : ∀ (L : List Nat), L.Nodup → x ∈ L →
    (L.map (fun i => if x = i then 1 else 0)).sum = 1
  | [], _, h => absurd h (List.not_mem_nil x)
  | a :: as, hnd, h => by
    rcases List.mem_cons.mp h with rfl | hmem
    · have : x ∉ as := (List.nodup_cons.mp hnd).1
      simp [sum_indicator_zero x as this]
    · have hxa : x ≠ a := by
        rintro rfl
        exact (List.nodup_cons.mp hnd).1 hmem
      simp [hxa, sum_indicator_one x as (List.nodup_cons.mp hnd).2 hmem]

lemma sum_counts (n : Nat) : ∀ (ls : List Nat), (∀ x ∈ ls, x < n) →
    ((List.range n).map (fun i => ls.count i)).sum = ls.length
  | [], _ => by simp
  | x :: tl, h => by
    have hx : x < n := h x (List.mem_cons_self x tl)
    have htl : ∀ y ∈ tl, y < n := fun y hy => h y (List.mem_cons_of_mem x hy)
    have hmap : (List.range n).map (fun i => (x :: tl).count i) =
        (List.range n).map (fun i => tl.count i + if x = i then 1 else 0) := by
      apply List.map_congr_left
      intro i _
      rw [List.count_cons]
      simp [beq_iff_eq]
    rw [hmap, sum_map_add, sum_counts n tl htl,
      sum_indicator_one x (List.range n) (List.nodup_range n) (List.mem_range.mpr hx)]
    simp

lemma cast_sum_counts (n : Nat) (ls : List Nat) (h : ∀ x ∈ ls, x < n) :
    ((List.range n).map (fun i => (ls.count i : ℚ))).sum = (ls.length : ℚ) := by
  calc ((List.range n).map (fun i => (ls.count i : ℚ))).sum
      = (((List.range n).map (fun i => ls.count i)).map (fun m : ℕ => (m : ℚ))).sum := by
        rw [List.map_map]
        rfl
    _ = ((((List.range n).map (fun i => ls.count i)).sum : ℕ) : ℚ) := by
        rw [Nat.cast_list_sum]
    _ = (ls.length : ℚ) := by rw [sum_counts n ls h]

/-! ### Claims C3, C9, C10: the Color Profiler -/

/-- Success and the three structural facts about `get_dominant_colors`:
exact weight sum 100, descending order, and exactly `n` observations. -/
lemma gdc_spec (pixels : List Pixel) (n seed : Nat) (h1 : 0 < n) (h2 : n ≤ pixels.length) :
    ∃ l, get_dominant_colors_seeded pixels n seed = some l ∧
      (l.map ColorObs.percentage).sum = 100 ∧
      l.Pairwise (fun a b => b.percentage ≤ a.percentage) ∧
      l.length = n := by
  have hguard : ¬ (n = 0 ∨ pixels.length < n) := by omega
  rw [get_dominant_colors_seeded, if_neg hguard]
  refine ⟨_, rfl, ?_, ?_, ?_⟩
  · have hperm := List.perm_insertionSort (keyGe ColorObs.percentage)
      ((List.range n).map (fun i =>
        ColorObs.mk (truncHexColor ((kmeansFit pixels n seed).centers.getD i (0, 0, 0)))
          ((((kmeansFit pixels n seed).labels.count i : ℚ) / (pixels.length : ℚ)) * 100)))
    rw [List.Perm.sum_eq (hperm.map ColorObs.percentage), List.map_map]
    show ((List.range n).map (fun i =>
        (((kmeansFit pixels n seed).labels.count i : ℚ) / (pixels.length : ℚ)) * 100)).sum = 100
    have hfactor : ∀ i ∈ List.range n,
        (((kmeansFit pixels n seed).labels.count i : ℚ) / (pixels.length : ℚ)) * 100 =
          ((kmeansFit pixels n seed).labels.count i : ℚ) * (100 / (pixels.length : ℚ)) := by
      intro i _
      ring
    rw [List.map_congr_left hfactor, List.sum_map_mul_right]
    have hlabels : (kmeansFit pixels n seed).labels = kmeansLabels pixels n := rfl
    rw [hlabels, cast_sum_counts n _ (kmeansLabels_lt pixels n h1), length_kmeansLabels]
    have hlen0 : (pixels.length : ℚ) ≠ 0 := by
      have : 0 < pixels.length := lt_of_lt_of_le h1 h2
      exact Nat.cast_ne_zero.mpr (by omega)
    field_simp
  · exact List.sorted_insertionSort (keyGe ColorObs.percentage) _
  · rw [List.length_insertionSort, List.length_map, List.length_range]

/-- C3 (amended): whenever the Color Profiler succeeds, the returned
observations are sorted descending by percentage and the weights sum to
exactly 100 in exact arithmetic (so certainly within 0.5 of 100.0); but the
number of observations is always exactly `n_colors`, never reduced to the
number of distinct colors present. -/
theorem c3_color_profile (pixels : List Pixel) (n seed : Nat) (h1 : 0 < n)
    (h2 : n ≤ pixels.length) :
    ∃ l, get_dominant_colors_seeded pixels n seed = some l ∧
      (l.map ColorObs.percentage).sum = 100 ∧
      l.Pairwise (fun a b => b.percentage ≤ a.percentage) ∧
      l.length = n :=
  gdc_spec pixels n seed h1 h2

theorem c3_witness :
    ∃ l, get_dominant_colors_seeded [((1, 2, 3) : Pixel)] 1 42 = some l ∧
      (l.map ColorObs.percentage).sum = 100 ∧
      l.Pairwise (fun a b => b.percentage ≤ a.percentage) ∧
      l.length = 1 :=
  c3_color_profile [(1, 2, 3)] 1 42 (by decide) (by decide)

/-- C3 counterexample: a five-pixel single-color image clustered with
`n_colors = 5` yields 5 observations, not
`min(n_colors, distinct_colors_present) = min 5 1 = 1`. -/
theorem c3_counterexample :
    (∃ l, get_dominant_colors_seeded (List.replicate 5 ((0, 0, 0) : Pixel)) 5 42 = some l ∧
      l.length = 5) ∧
    (keepFirst (List.replicate 5 ((0, 0, 0) : Pixel))).length = 1 ∧
    ¬ (5 : Nat) = min 5 1 := by
  refine ⟨?_, by decide, by decide⟩
  obtain ⟨l, hl, -, -, hlen⟩ :=
    gdc_spec (List.replicate 5 (0, 0, 0)) 5 42 (by decide) (by decide)
  exact ⟨l, hl, hlen⟩

/-- C9: the Color Profiler is a pure function of the pixel data, the
cluster count and the clustering seed — two calls with identical inputs
return identical observation lists (same hex values, same weights, same
order) — and the source fixes the seed to the constant 42 for every call,
never re-randomizing it. -/
theorem c9_determinism (p₁ p₂ : List Pixel) (n₁ n₂ s₁ s₂ : Nat)
    (hp : p₁ = p₂) (hn : n₁ = n₂) (hs : s₁ = s₂) :
    get_dominant_colors_seeded p₁ n₁ s₁ = get_dominant_colors_seeded p₂ n₂ s₂ ∧
    get_dominant_colors p₁ n₁ = get_dominant_colors_seeded p₁ n₁ 42 := by
  subst hp
  subst hn
  subst hs
  exact ⟨rfl, rfl⟩

theorem c9_witness :
    get_dominant_colors_seeded [((1, 2, 3) : Pixel)] 5 42 =
      get_dominant_colors_seeded [((1, 2, 3) : Pixel)] 5 42 ∧
    get_dominant_colors [((1, 2, 3) : Pixel)] 5 =
      get_dominant_colors_seeded [((1, 2, 3) : Pixel)] 5 42 :=
  c9_determinism [(1, 2, 3)] [(1, 2, 3)] 5 5 42 42 rfl rfl rfl

/-- C10: whenever `get_dominant_colors` succeeds it returns exactly
`n_colors` observations — the loop ranges over all `n_colors` cluster
indices — so an image with fewer distinct colors yields duplicate or
zero-weight entries rather than a shorter list; the cluster count is never
reduced (and the profiler does succeed whenever there are at least
`n_colors ≥ 1` pixels). -/
theorem c10_cluster_count (pixels : List Pixel) (n : Nat) :
    (∀ l, get_dominant_colors pixels n = some l → l.length = n) ∧
    (0 < n → n ≤ pixels.length →
      ∃ l, get_dominant_colors pixels n = some l ∧ l.length = n) := by
  constructor
  · intro l h
    rw [get_dominant_colors, get_dominant_colors_seeded] at h
    by_cases hg : n = 0 ∨ pixels.length < n
    · rw [if_pos hg] at h
      exact absurd h (by simp)
    · rw [if_neg hg] at h
      cases Option.some.inj h
      rw [List.length_insertionSort, List.length_map, List.length_range]
  · intro h1 h2
    obtain ⟨l, hl, -, -, hlen⟩ := gdc_spec pixels n 42 h1 h2
    exact ⟨l, hl, hlen⟩

theorem c10_witness :
    ∃ l, get_dominant_colors (List.replicate 5 ((7, 7, 7) : Pixel)) 5 = some l ∧
      l.length = 5 :=
  (c10_cluster_count (List.replicate 5 (7, 7, 7)) 5).2 (by decide) (by decide)

/-! ### Claim C8: the hex encoding of centroids -/

def inRangeQ (x : ℚ) : Prop := 0 ≤ x ∧ x ≤ 255

def inRangeRGB (c : QRGB) : Prop := inRangeQ c.1 ∧ inRangeQ c.2.1 ∧ inRangeQ c.2.2

lemma pixelToQ_inRange (p : Pixel) (hp : p.1 ≤ 255 ∧ p.2.1 ≤ 255 ∧ p.2.2 ≤ 255) :
    inRangeRGB (pixelToQ p) := by
  simp only [pixelToQ, inRangeRGB, inRangeQ]
  refine ⟨⟨Nat.cast_nonneg _, ?_⟩, ⟨Nat.cast_nonneg _, ?_⟩, ⟨Nat.cast_nonneg _, ?_⟩⟩
  · exact_mod_cast hp.1
  · exact_mod_cast hp.2.1
  · exact_mod_cast hp.2.2

lemma initCenters_mem (pixels : List Pixel) (n : Nat) (hne : pixels ≠ []) :
    ∀ q ∈ initCenters pixels n, q ∈ pixels := by
  intro q hq
  rw [initCenters] at hq
  rcases List.mem_append.mp hq with h | h
  · exact mem_keepFirst.mp (List.mem_of_mem_take h)
  · rw [List.eq_of_mem_replicate h]
    cases pixels with
    | nil => exact absurd rfl hne
    | cons a as => exact List.mem_cons_self a as

lemma clusterPts_subset (pixels : List Pixel) (labels : List Nat) (i : Nat) :
    ∀ q ∈ clusterPts pixels labels i, q ∈ pixels := by
  intro q hq
  rw [clusterPts] at hq
  rcases List.mem_map.mp hq with ⟨pair, hpair, rfl⟩
  exact (List.of_mem_zip (List.mem_filter.mp hpair).1).1

lemma meanQ_inRange (l : List ℚ) (hne : l ≠ []) (h : ∀ x ∈ l, inRangeQ x) :
    inRangeQ (meanQ l) := by
  have hlen : (0 : ℚ) < l.length := by
    have := List.length_pos.mpr hne
    exact_mod_cast this
  constructor
  · exact div_nonneg (List.sum_nonneg fun x hx => (h x hx).1) (le_of_lt hlen)
  · rw [meanQ, div_le_iff₀ hlen]
    calc l.sum ≤ l.length • (255 : ℚ) :=
          List.sum_le_card_nsmul l 255 fun x hx => (h x hx).2
      _ = 255 * l.length := by rw [nsmul_eq_mul]; ring

lemma clusterMean_inRange (pixels : List Pixel) (labels : List Nat) (i : Nat)
    (fallback : QRGB) (hb : ∀ p ∈ pixels, p.1 ≤ 255 ∧ p.2.1 ≤ 255 ∧ p.2.2 ≤ 255)
    (hf : inRangeRGB fallback) :
    inRangeRGB (clusterMean pixels labels i fallback) := by
  rw [clusterMean]
  by_cases hpts : clusterPts pixels labels i = []
  · rw [if_pos hpts]
    exact hf
  · rw [if_neg hpts]
    have hsub := clusterPts_subset pixels labels i
    have hmapne : ∀ (f : Pixel → ℚ), (clusterPts pixels labels i).map f ≠ [] := by
      intro f hmap
      exact hpts (List.map_eq_nil_iff.mp hmap)
    refine ⟨?_, ?_, ?_⟩ <;> apply meanQ_inRange _ (hmapne _) <;> intro x hx <;>
      rcases List.mem_map.mp hx with ⟨p, hp, rfl⟩
    · exact ⟨Nat.cast_nonneg _, by exact_mod_cast (hb p (hsub p hp)).1⟩
    · exact ⟨Nat.cast_nonneg _, by exact_mod_cast (hb p (hsub p hp)).2.1⟩
    · exact ⟨Nat.cast_nonneg _, by exact_mod_cast (hb p (hsub p hp)).2.2⟩

lemma getD_inRange (cs : List QRGB) (i : Nat) (h : ∀ c ∈ cs, inRangeRGB c) :
    inRangeRGB (cs.getD i (0, 0, 0)) := by
  by_cases hi : i < cs.length
  · rw [List.getD_eq_getElem cs _ hi]
    exact h _ (List.getElem_mem hi)
  · rw [List.getD_eq_default cs _ (Nat.le_of_not_lt hi)]
    refine ⟨⟨le_refl 0, by norm_num⟩, ⟨le_refl 0, by norm_num⟩, ⟨le_refl 0, by norm_num⟩⟩

lemma kmeans_center_inRange (pixels : List Pixel) (n seed i : Nat)
    (hb : ∀ p ∈ pixels, p.1 ≤ 255 ∧ p.2.1 ≤ 255 ∧ p.2.2 ≤ 255) (hne : pixels ≠ []) :
    inRangeRGB ((kmeansFit pixels n seed).centers.getD i (0, 0, 0)) := by
  apply getD_inRange
  intro c hc
  have hcenters : (kmeansFit pixels n seed).centers =
      (List.range n).map (fun j => clusterMean pixels (kmeansLabels pixels n) j
        ((kmeansInit pixels n).getD j (0, 0, 0))) := rfl
  rw [hcenters] at hc
  rcases List.mem_map.mp hc with ⟨j, _, rfl⟩
  apply clusterMean_inRange pixels _ j _ hb
  apply getD_inRange
  intro c0 hc0
  rw [kmeansInit] at hc0
  rcases List.mem_map.mp hc0 with ⟨q, hq, rfl⟩
  exact pixelToQ_inRange q (hb q (initCenters_mem pixels n hne q hq))

/-- For nonnegative rationals, Python truncation agrees with the floor. -/
lemma intPy_eq_floor (q : ℚ) (h : 0 ≤ q) : intPy q = ⌊q⌋ := by
  rw [intPy, Int.tdiv_eq_ediv (Rat.num_nonneg.mpr h) (Int.natCast_nonneg _), ← Rat.floor_def]

lemma intPy_toNat_le (q : ℚ) (h : inRangeQ q) : (intPy q).toNat ≤ 255 := by
  rw [intPy_eq_floor q h.1, Int.toNat_le]
  calc ⌊q⌋ ≤ ⌊(255 : ℚ)⌋ := Int.floor_mono h.2
    _ ≤ ((255 : ℕ) : ℤ) := by norm_num

lemma hexDigit_mem (d : Nat) (hd : d < 16) : hexDigit d ∈ hexAlphabet.data := by
  interval_cases d <;> decide

lemma byteHex_ok (v : Nat) (hv : v ≤ 255) :
    (byteHex v).data = [hexDigit (v / 16), hexDigit (v % 16)] ∧
    ∀ c ∈ (byteHex v).data, c ∈ hexAlphabet.data := by
  have h255 : (255 : Nat) / 16 = 15 := by norm_num
  have ha : v / 16 ≤ 255 / 16 := Nat.div_le_div_right hv
  have h1 : v / 16 < 16 := by omega
  have h2 : v % 16 < 16 := Nat.mod_lt _ (by norm_num)
  refine ⟨rfl, ?_⟩
  intro c hc
  have : c = hexDigit (v / 16) ∨ c = hexDigit (v % 16) := by
    rcases List.mem_cons.mp hc with h | h
    · exact Or.inl h
    · rcases List.mem_cons.mp h with h' | h'
      · exact Or.inr h'
      · exact absurd h' (List.not_mem_nil c)
  rcases this with rfl | rfl
  · exact hexDigit_mem _ h1
  · exact hexDigit_mem _ h2

lemma hexOk_trunc (c : QRGB) (h : inRangeRGB c) : hexOk (truncHexColor c) = true := by
  have hr := intPy_toNat_le c.1 h.1
  have hg := intPy_toNat_le c.2.1 h.2.1
  have hb := intPy_toNat_le c.2.2 h.2.2
  have hdata : (truncHexColor c).data =
      Char.ofNat 35 :: ((byteHex (intPy c.1).toNat).data ++ (byteHex (intPy c.2.1).toNat).data
        ++ (byteHex (intPy c.2.2).toNat).data) := by
    rw [truncHexColor, String.data_append, String.data_append, String.data_append]
    simp
  rw [hexOk, hdata]
  simp only [Bool.and_eq_true, decide_eq_true_eq, List.all_eq_true]
  refine ⟨⟨rfl, ?_⟩, ?_⟩
  · rw [(byteHex_ok _ hr).1, (byteHex_ok _ hg).1, (byteHex_ok _ hb).1]
    rfl
  · intro d hd
    simp only [List.mem_append] at hd
    rcases hd with (hd | hd) | hd
    · exact (byteHex_ok _ hr).2 d hd
    · exact (byteHex_ok _ hg).2 d hd
    · exact (byteHex_ok _ hb).2 d hd

/-- C8 (amended): every observation's hex string is the lowercase
`#rrggbb` encoding of its cluster centroid with each channel truncated
toward zero (Python `int()`), not rounded to the nearest integer; for
8-bit input pixels it always matches the pattern `#` followed by six
lowercase hex digits, including on degenerate single-color images. -/
theorem c8_hex_format (pixels : List Pixel) (n seed : Nat)
    (hb : ∀ p ∈ pixels, p.1 ≤ 255 ∧ p.2.1 ≤ 255 ∧ p.2.2 ≤ 255)
    (h1 : 0 < n) (h2 : n ≤ pixels.length) :
    ∃ l, get_dominant_colors_seeded pixels n seed = some l ∧
      ∀ obs ∈ l,
        (∃ i < n, obs.hex =
          truncHexColor ((kmeansFit pixels n seed).centers.getD i (0, 0, 0))) ∧
        hexOk obs.hex = true := by
  have hguard : ¬ (n = 0 ∨ pixels.length < n) := by omega
  rw [get_dominant_colors_seeded, if_neg hguard]
  refine ⟨_, rfl, ?_⟩
  intro obs hobs
  have hobs' := (List.mem_insertionSort (keyGe ColorObs.percentage)).mp hobs
  rcases List.mem_map.mp hobs' with ⟨i, hi, rfl⟩
  have hne : pixels ≠ [] := by
    intro hh
    rw [hh] at h2
    simp at h2
    omega
  exact ⟨⟨i, List.mem_range.mp hi, rfl⟩,
    hexOk_trunc _ (kmeans_center_inRange pixels n seed i hb hne)⟩

theorem c8_witness :
    ∃ l, get_dominant_colors_seeded [((10, 20, 30) : Pixel)] 1 42 = some l ∧
      ∀ obs ∈ l,
        (∃ i < 1, obs.hex =
          truncHexColor ((kmeansFit [((10, 20, 30) : Pixel)] 1 42).centers.getD i (0, 0, 0))) ∧
        hexOk obs.hex = true :=
  c8_hex_format [(10, 20, 30)] 1 42 (by decide) (by decide) (by decide)

/-! ### The C8 counterexample: truncation, not rounding -/

def pxC8 : List Pixel := [(0, 0, 0), (0, 0, 1), (0, 0, 1)]

lemma nearestIdx_singleton (c : QRGB) (p : Pixel) : nearestIdx [c] p = 0 := by
  simp [nearestIdx, min_self]

lemma kmC8_init : kmeansInit pxC8 1 = [pixelToQ (0, 0, 0)] := by
  rw [kmeansInit, show initCenters pxC8 1 = [(0, 0, 0)] from by decide]
  rfl

lemma kmC8_labels : kmeansLabels pxC8 1 = [0, 0, 0] := by
  rw [kmeansLabels, kmC8_init]
  show pxC8.map (nearestIdx [pixelToQ (0, 0, 0)]) = [0, 0, 0]
  rw [pxC8]
  simp [nearestIdx_singleton]

lemma kmC8_pts : clusterPts pxC8 [0, 0, 0] 0 = pxC8 := by decide

lemma kmC8_center :
    (kmeansFit pxC8 1 42).centers.getD 0 (0, 0, 0) = ((0 : ℚ), (0 : ℚ), (2 : ℚ) / 3) := by
  have h1 : (kmeansFit pxC8 1 42).centers =
      [clusterMean pxC8 (kmeansLabels pxC8 1) 0 ((kmeansInit pxC8 1).getD 0 (0, 0, 0))] := rfl
  rw [h1]
  show clusterMean pxC8 (kmeansLabels pxC8 1) 0 ((kmeansInit pxC8 1).getD 0 (0, 0, 0)) = _
  rw [kmC8_labels, clusterMean, kmC8_pts, if_neg (by decide : ¬ pxC8 = [])]
  have hx : meanQ (pxC8.map (fun p => (p.1 : ℚ))) = 0 := by
    rw [pxC8]
    simp [meanQ]
  have hy : meanQ (pxC8.map (fun p => (p.2.1 : ℚ))) = 0 := by
    rw [pxC8]
    simp [meanQ]
  have hz : meanQ (pxC8.map (fun p => (p.2.2 : ℚ))) = (2 : ℚ) / 3 := by
    rw [pxC8]
    simp [meanQ]
    norm_num
  rw [hx, hy, hz]

/-- C8 counterexample: on the three-pixel image `pxC8` with one cluster,
the centroid is `(0, 0, 2/3)`; the code truncates and emits `#000000`,
while encoding with channels rounded to the nearest integer (as the claim
states) would give `#000001`. -/
theorem c8_counterexample :
    get_dominant_colors pxC8 1 = some [ColorObs.mk hexBlack 100] ∧
    specRoundHexColor ((kmeansFit pxC8 1 42).centers.getD 0 (0, 0, 0)) = hexOne ∧
    hexBlack ≠ hexOne := by
  refine ⟨?_, ?_, by decide⟩
  · rw [get_dominant_colors, get_dominant_colors_seeded, if_neg (by decide),
      show List.range 1 = [0] from rfl]
    simp only [List.map_cons, List.map_nil]
    rw [show ∀ x : ColorObs, List.insertionSort (keyGe ColorObs.percentage) [x] = [x] from
      fun x => rfl]
    have hhex : truncHexColor ((kmeansFit pxC8 1 42).centers.getD 0 (0, 0, 0)) = hexBlack := by
      rw [kmC8_center, truncHexColor]
      dsimp only
      rw [intPy_eq_floor (0 : ℚ) le_rfl, intPy_eq_floor ((2 : ℚ) / 3) (by norm_num),
        show ⌊(0 : ℚ)⌋ = 0 from by norm_num, show ⌊(2 : ℚ) / 3⌋ = 0 from by norm_num]
      decide
    have hcnt : (kmeansFit pxC8 1 42).labels.count 0 = 3 := by
      show (kmeansLabels pxC8 1).count 0 = 3
      rw [kmC8_labels]
      decide
    have hpct : (((kmeansFit pxC8 1 42).labels.count 0 : ℚ) / (pxC8.length : ℚ)) * 100 =
        100 := by
      rw [hcnt, show pxC8.length = 3 from rfl]
      norm_num
    rw [hhex, hpct]
  · rw [kmC8_center, specRoundHexColor]
    dsimp only
    rw [show round ((0 : ℚ)) = 0 from by norm_num,
      show round ((2 : ℚ) / 3) = 1 from by norm_num [round_eq]]
    decide

end PinterestAnalyzer
